import Mathlib

/-!
Shallow embedding of the differentiable-mutable layer of the repository
(`pplib/nas/mutables/diff_mutable.py`) and of the zero-cost predictor
evaluator (`nanonas/evaluator/zc_evaluator.py`), together with theorems
settling the specification claims about them.

Modelling conventions:
* `nn.ModuleDict` is an ordered association list with unique string keys
  (`ODict`); candidate operations are functions `T → V` over an arbitrary
  input type `T` and an additive commutative monoid `V` of outputs
  (tensors of a common shape), with rational scalars standing for the
  probability weights.
* Architecture probabilities: `compute_arch_probs` applies `F.softmax`
  (or `F.gumbel_softmax` in the Gumbel variants) to the architecture
  parameter.  Both are transcendental (and the Gumbel one is sampled),
  so the forward functions are embedded as functions of the computed
  probability vector `arch_probs`; `none` stands for `arch_param=None`
  (in which case the source never computes probabilities).  Both
  normalizers only produce nonnegative vectors, which is the hypothesis
  used where it matters.
* Python exceptions (KeyError, AttributeError, AssertionError,
  ValueError, IndexError, RuntimeError, TypeError) are `Except.error`
  with a describing message.
* Modelled from the spec: `BaseMutable` (`base_mutable.py` is not part
  of the sources) initializes a mutable as unfixed with no chosen
  entry; this is the fields `is_fixed := false`, `chosen := none` of a
  freshly built mutable, and the `is_fixed` property is plain boolean
  state set to true exactly by `fix_chosen`.
-/

/-- An `nn.ModuleDict`: an insertion-ordered dictionary with string keys. -/
abbrev ODict (α : Type) := List (String × α)

/-- `d.keys()` of a module dict. -/
def ODict.keys {α : Type} (d : ODict α) : List String :=
  d.map Prod.fst

/-- `d.values()` of a module dict. -/
def ODict.values {α : Type} (d : ODict α) : List α :=
  d.map Prod.snd

/-- `d[k]`, as an option (a missing key is a Python KeyError at use sites). -/
def ODict.get? {α : Type} (d : ODict α) (k : String) : Option α :=
  (d.find? (fun kv => kv.1 == k)).map Prod.snd

/-- State of a `DiffOP` (and the shared `DiffMutable` state): the candidate
operation dict built in `__init__`, the `is_fixed` flag, and `_chosen`
(a single choice-name string for this class, set by `fix_chosen`). -/
structure DiffOP (T V : Type) where
  candidate_ops : ODict (T → V)
  is_fixed : Bool
  chosen : Option String

/-- `DiffOP.choices`: `list(self._candidate_ops.keys())`. -/
def DiffOP.choices {T V : Type} (m : DiffOP T V) : List String :=
  ODict.keys m.candidate_ops

/-- `DiffOP.forward_fixed`: `sum(self._candidate_ops[choice](x) for choice in
self._chosen)`.  `self._chosen` is the chosen name *string*, so the Python
`for` iterates over its characters, and each single-character string is
looked up as a key of the candidate dict (KeyError when absent).  An
unfixed mutable has no `_chosen` to iterate (error). -/
def DiffOP.forward_fixed {T V : Type} [AddCommMonoid V]
    (m : DiffOP T V) (x : T) : Except String V :=
  match m.chosen with
  | none => Except.error "TypeError: chosen is not set"
  | some s => do
    let outs ← s.data.mapM (fun ch =>
      match ODict.get? m.candidate_ops (String.singleton ch) with
      | some op => Except.ok (op x)
      | none => Except.error "KeyError")
    Except.ok outs.sum

/-- `DiffOP.forward_all`: sum of every candidate operation applied to `x`. -/
def DiffOP.forward_all {T V : Type} [AddCommMonoid V]
    (m : DiffOP T V) (x : T) : V :=
  ((ODict.values m.candidate_ops).map (fun op => op x)).sum

/-- `DiffOP.forward_arch_param`: with `arch_param=None` it is
`forward_all`; otherwise the probability-weighted sum of the candidate
outputs, skipping every candidate whose probability is not `> 0`
(`arch_probs` is the computed probability vector, see the header). -/
def DiffOP.forward_arch_param {T V : Type} [AddCommMonoid V] [Module ℚ V]
    (m : DiffOP T V) (x : T) (arch_probs : Option (List ℚ)) : V :=
  match arch_probs with
  | none => m.forward_all x
  | some probs =>
    (((probs.zip (ODict.values m.candidate_ops)).filter
        (fun pm => decide (0 < pm.1))).map
      (fun pm => pm.1 • pm.2 x)).sum

/-- `DiffMutable.forward` for a `DiffOP`: dispatch on `is_fixed`. -/
def DiffOP.forward {T V : Type} [AddCommMonoid V] [Module ℚ V]
    (m : DiffOP T V) (x : T) (arch_probs : Option (List ℚ)) :
    Except String V :=
  if m.is_fixed then m.forward_fixed x
  else Except.ok (m.forward_arch_param x arch_probs)

/-- `DiffOP.fix_chosen`: error when already fixed; otherwise pop every
candidate whose key differs from `chosen`, record `chosen`, set the flag. -/
def DiffOP.fix_chosen {T V : Type} (m : DiffOP T V) (chosen : String) :
    Except String (DiffOP T V) :=
  if m.is_fixed then
    Except.error "AttributeError: the mode of current MUTABLE is fixed"
  else
    Except.ok
      { candidate_ops := m.candidate_ops.filter (fun kv => kv.1 == chosen)
        is_fixed := true
        chosen := some chosen }

/-- State of a `DynaDiffOP`: a `DiffOP` plus the dynamic threshold. -/
structure DynaDiffOP (T V : Type) extends DiffOP T V where
  dyna_thresh : ℚ

/-- The two values of `torch.topk(probs, 2)`: the largest and second
largest entries (with multiplicity), via a descending sort. -/
def topkTwo (probs : List ℚ) : ℚ × ℚ :=
  let s := List.insertionSort (fun a b : ℚ => b ≤ a) probs
  (s.getD 0 0, s.getD 1 0)

/-- A one-hot vector: `probs.data.zero_()` followed by
`probs.data[index].fill_(1.0)`. -/
def oneHot (n : Nat) (index : Nat) : List ℚ :=
  (List.range n).map (fun i => if i = index then 1 else 0)

/-- `DynaDiffOP.forward_arch_param`.  With `arch_param=None` it is
`forward_all`.  Otherwise: if unfixed, compare the two largest computed
probabilities; when their gap reaches `dyna_thresh` the boolean comparison
result itself is used as a list index (`self.choices[index]`, i.e. index 1)
and the mutable is fixed on that choice.  If already fixed, the
probability vector is replaced by a one-hot at
`self.choices.index(self._chosen[0])` (`self._chosen[0]` is the first
*character* of the chosen name; ValueError when it is not a key).
Finally the weighted sum over `zip(probs, self._candidate_ops.values())`
is returned together with the resulting state. -/
def DynaDiffOP.forward_arch_param {T V : Type} [AddCommMonoid V] [Module ℚ V]
    (m : DynaDiffOP T V) (x : T) (arch_probs : Option (List ℚ)) :
    Except String (V × DynaDiffOP T V) :=
  match arch_probs with
  | none => Except.ok (m.toDiffOP.forward_all x, m)
  | some probs0 =>
    if probs0.length < 2 then
      Except.error "RuntimeError: topk selected index out of range"
    else do
      let state ←
        if m.is_fixed = false then
          if (topkTwo probs0).1 - (topkTwo probs0).2 ≥ m.dyna_thresh then
            match m.toDiffOP.choices.get? 1 with
            | none => Except.error "IndexError: list index out of range"
            | some c => do
              let d ← m.toDiffOP.fix_chosen c
              Except.ok (DynaDiffOP.mk d m.dyna_thresh, probs0)
          else
            Except.ok (m, probs0)
        else
          match m.chosen with
          | none => Except.error "TypeError: chosen is not set"
          | some s =>
            match s.data.head? with
            | none => Except.error "IndexError: string index out of range"
            | some ch =>
              match (m.toDiffOP.choices).indexOf? (String.singleton ch) with
              | none => Except.error "ValueError: not in list"
              | some idx =>
                if idx < probs0.length then
                  Except.ok (m, oneHot probs0.length idx)
                else
                  Except.error "IndexError: index out of bounds"
      let m2 := state.1
      let probs := state.2
      let out :=
        (((probs.zip (ODict.values m2.candidate_ops)).filter
            (fun pm => decide (0 < pm.1))).map
          (fun pm => pm.1 • pm.2 x)).sum
      Except.ok (out, m2)

/-- `DiffMutable.forward` for a `DynaDiffOP`: dispatch on `is_fixed`
(the unfixed branch may mutate the state, which is returned). -/
def DynaDiffOP.forward {T V : Type} [AddCommMonoid V] [Module ℚ V]
    (m : DynaDiffOP T V) (x : T) (arch_probs : Option (List ℚ)) :
    Except String (V × DynaDiffOP T V) :=
  if m.is_fixed then (m.toDiffOP.forward_fixed x).map (fun v => (v, m))
  else m.forward_arch_param x arch_probs

/-- State of a `DiffChoiceRoute` (also the data of `GumbelChoiceRoute`,
which only overrides `compute_arch_probs`): the edge dict, the
`with_arch_param` flag, the shared fixed-state fields, and
`_unfixed_choices` (set by `fix_chosen`). -/
structure DiffChoiceRoute (T V : Type) where
  edges : ODict (T → V)
  with_arch_param : Bool
  is_fixed : Bool
  chosen : Option (List String)
  unfixed_choices : Option (List String)

/-- `DiffChoiceRoute.choices`: `list(self._edges.keys())`. -/
def DiffChoiceRoute.choices {T V : Type} (m : DiffChoiceRoute T V) :
    List String :=
  ODict.keys m.edges

/-- `DiffChoiceRoute.forward_fixed`: asserts a choice has been fixed, then
sums `self._edges[choice](x)` over the pairs of `zip(self._unfixed_choices,
inputs)` whose choice is in `self._chosen`. -/
def DiffChoiceRoute.forward_fixed {T V : Type} [AddCommMonoid V]
    (m : DiffChoiceRoute T V) (inputs : List T) : Except String V :=
  match m.chosen with
  | none => Except.error "AssertionError: please call fix_chosen first"
  | some ch =>
    match m.unfixed_choices with
    | none => Except.error "AttributeError: unfixed choices are not set"
    | some uf => do
      let outs ← ((uf.zip inputs).filter (fun ci => ch.contains ci.1)).mapM
        (fun ci =>
          match ODict.get? m.edges ci.1 with
          | some op => Except.ok (op ci.2)
          | none => Except.error "KeyError")
      Except.ok outs.sum

/-- `DiffChoiceRoute.forward_all`: asserts `len(x) == len(self._edges)`,
then sums `op(input)` over `zip(self._edges.values(), x)`. -/
def DiffChoiceRoute.forward_all {T V : Type} [AddCommMonoid V]
    (m : DiffChoiceRoute T V) (x : List T) : Except String V :=
  if x.length = m.edges.length then
    Except.ok
      ((((ODict.values m.edges).zip x).map (fun oi => oi.1 oi.2)).sum)
  else
    Except.error "AssertionError: length of edges differs from inputs"

/-- `DiffChoiceRoute.forward_arch_param`: asserts the length match; in the
`with_arch_param` branch computes the probabilities of `arch_param`
(an error when `arch_param=None`) and sums the weighted outputs over
`zip(probs, self._edges.values(), x)`, skipping probabilities not `> 0`;
otherwise delegates to `forward_all`. -/
def DiffChoiceRoute.forward_arch_param {T V : Type} [AddCommMonoid V]
    [Module ℚ V] (m : DiffChoiceRoute T V) (x : List T)
    (arch_probs : Option (List ℚ)) : Except String V :=
  if x.length = m.edges.length then
    if m.with_arch_param then
      match arch_probs with
      | none => Except.error "AttributeError: softmax of None"
      | some probs =>
        Except.ok
          ((((probs.zip ((ODict.values m.edges).zip x)).filter
              (fun t => decide (0 < t.1))).map
            (fun t => t.1 • t.2.1 t.2.2)).sum)
    else m.forward_all x
  else
    Except.error "AssertionError: length of edges differs from inputs"

/-- `DiffMutable.forward` for a `DiffChoiceRoute`: dispatch on `is_fixed`. -/
def DiffChoiceRoute.forward {T V : Type} [AddCommMonoid V] [Module ℚ V]
    (m : DiffChoiceRoute T V) (x : List T)
    (arch_probs : Option (List ℚ)) : Except String V :=
  if m.is_fixed then m.forward_fixed x
  else m.forward_arch_param x arch_probs

/-- `DiffChoiceRoute.fix_chosen`: records `_unfixed_choices`, errors when
already fixed, pops every edge whose key is not in `chosen`, records
`chosen`, sets the flag. -/
def DiffChoiceRoute.fix_chosen {T V : Type} (m : DiffChoiceRoute T V)
    (chosen : List String) : Except String (DiffChoiceRoute T V) :=
  let m1 := { m with unfixed_choices := some m.choices }
  if m1.is_fixed then
    Except.error "AttributeError: the mode of current MUTABLE is fixed"
  else
    Except.ok
      { m1 with
        edges := m1.edges.filter (fun kv => chosen.contains kv.1)
        chosen := some chosen
        is_fixed := true }

/-!
Specification-side definitions (named `spec_...`), written from the words
of the spec to be compared with the embedded code above.
-/

/-- Spec: the full probability-weighted sum of all candidate outputs of a
`DiffOP`, with no zero-probability skipping. -/
def DiffOP.spec_full_mixture {T V : Type} [AddCommMonoid V] [Module ℚ V]
    (m : DiffOP T V) (x : T) (probs : List ℚ) : V :=
  ((probs.zip (ODict.values m.candidate_ops)).map
    (fun pm => pm.1 • pm.2 x)).sum

/-- Spec: the full probability-weighted sum of all edge outputs of a
`DiffChoiceRoute` on the matching inputs, with no zero-probability
skipping. -/
def DiffChoiceRoute.spec_full_mixture {T V : Type} [AddCommMonoid V]
    [Module ℚ V] (m : DiffChoiceRoute T V) (x : List T) (probs : List ℚ) :
    V :=
  ((probs.zip ((ODict.values m.edges).zip x)).map
    (fun t => t.1 • t.2.1 t.2.2)).sum

/-!
Embedding of the relevant slice of
`ZeroCostPredictorEvaluator.single_evaluate`
(`nanonas/evaluator/zc_evaluator.py`).
-/

/-- A Python float as it matters here: a finite value, one of the two
infinities, or NaN. -/
inductive PFloat : Type where
  | finite (q : ℚ)
  | posInf : PFloat
  | negInf : PFloat
  | nan : PFloat
deriving DecidableEq

/-- Python `==` on floats: NaN compares unequal to everything, the
infinities compare equal only to themselves. -/
def PFloat.pyEq : PFloat → PFloat → Bool
  | PFloat.finite p, PFloat.finite q => p == q
  | PFloat.posInf, PFloat.posInf => true
  | PFloat.negInf, PFloat.negInf => true
  | _, _ => false

/-- The clamping of one predictor score in `single_evaluate`:
`if float(-inf) == pred: pred = -1e9 elif float(inf) == pred: pred = 1e9`. -/
def clampInf (pred : PFloat) : PFloat :=
  if PFloat.pyEq PFloat.negInf pred then PFloat.finite (-(10 ^ 9))
  else if PFloat.pyEq PFloat.posInf pred then PFloat.finite (10 ^ 9)
  else pred

/-- The prediction array `test_pred` handed to the correlation computation
in `single_evaluate`, for scalar per-architecture scores: every queried
score clamped by `clampInf`. -/
def singleEvaluatePreds (scores : List PFloat) : List PFloat :=
  scores.map clampInf

/-- `np.mean(test_pred, axis=0)` for a rectangular two-dimensional
`test_pred` whose rows are the per-architecture score lists: entry `j`
is the mean over all rows of column `j`. -/
def npMeanAxisZero (preds : List (List ℚ)) : List ℚ :=
  match preds with
  | [] => []
  | r :: _ =>
    (List.range r.length).map
      (fun j => (preds.map (fun row => row.getD j 0)).sum / (preds.length : ℚ))

/-- Spec: aggregate the multiple scores of each architecture by their
mean, one aggregate per architecture (row). -/
def spec_perArchMean (preds : List (List ℚ)) : List ℚ :=
  preds.map (fun row => row.sum / (row.length : ℚ))

/-!
Concrete instances used by the closed theorems and witnesses;
`ℚ` stands in for tensors of a fixed shape.
-/

/-- A candidate operation: add one. -/
def opAdd1 : ℚ → ℚ := fun q => q + 1

/-- A candidate operation: add two. -/
def opAdd2 : ℚ → ℚ := fun q => q + 2

/-- A candidate operation: identity (a skip connection). -/
def opIdQ : ℚ → ℚ := fun q => q

/-- An unfixed `DynaDiffOP` with two candidates and threshold `0.3`. -/
def dynaEx : DynaDiffOP ℚ ℚ :=
  DynaDiffOP.mk ⟨[("a", opAdd1), ("b", opAdd2)], false, none⟩ (3 / 10)

/-- An unfixed two-candidate `DiffOP`. -/
def diffPairEx : DiffOP ℚ ℚ :=
  ⟨[("a", opAdd1), ("b", opAdd2)], false, none⟩

/-- An unfixed two-edge `DiffChoiceRoute` with `with_arch_param=False`. -/
def routePairEx : DiffChoiceRoute ℚ ℚ :=
  ⟨[("e1", opAdd1), ("e2", opAdd2)], false, false, none, none⟩

/-- An unfixed `DiffOP` with multi-character candidate names. -/
def diffConvEx : DiffOP ℚ ℚ :=
  ⟨[("conv3x3", opAdd1), ("skip", opIdQ)], false, none⟩

/-- An unfixed one-edge `DiffChoiceRoute` with `with_arch_param=True`. -/
def routeWAEx : DiffChoiceRoute ℚ ℚ :=
  ⟨[("e1", opAdd1)], true, false, none, none⟩

/-- An unfixed two-edge `DiffChoiceRoute` with `with_arch_param=True`. -/
def routeWAPairEx : DiffChoiceRoute ℚ ℚ :=
  ⟨[("e1", opAdd1), ("e2", opAdd2)], true, false, none, none⟩

/-- An already fixed `DiffOP`. -/
def diffFixedEx : DiffOP ℚ ℚ :=
  ⟨[("a", opAdd1)], true, some "a"⟩

/-- An already fixed `DiffChoiceRoute`. -/
def routeFixedEx : DiffChoiceRoute ℚ ℚ :=
  ⟨[("e1", opAdd1)], false, true, some ["e1"], some ["e1"]⟩

/-!
Helper lemmas.
-/

/-- The sum of a list equals the sum of its entries indexed by `Fin`. -/
theorem list_sum_eq_fin_sum {V : Type} [AddCommMonoid V] (l : List V) :
    l.sum = ∑ i : Fin l.length, l.get i := by
  induction l with
  | nil => simp
  | cons a t ih =>
    show a + t.sum = ∑ i : Fin (t.length + 1), (a :: t).get i
    rw [Fin.sum_univ_succ, ih]
    rfl

/-- Mapping pairwise application over a zip is a `zipWith`. -/
theorem zip_map_apply_eq_zipWith {α β : Type} (l1 : List (α → β))
    (l2 : List α) :
    (l1.zip l2).map (fun oi => oi.1 oi.2) =
      List.zipWith (fun op a => op a) l1 l2 := by
  induction l1 generalizing l2 with
  | nil => simp
  | cons a t ih => cases l2 <;> simp [ih]

/-- Mapping weighted pairwise application over a zip is a `zipWith`. -/
theorem zip_map_smul_eq_zipWith {α V : Type} [AddCommMonoid V] [Module ℚ V]
    (ps : List ℚ) (l : List ((α → V) × α)) :
    (ps.zip l).map (fun t => t.1 • t.2.1 t.2.2) =
      List.zipWith (fun p oa => p • oa.1 oa.2) ps l := by
  induction ps generalizing l with
  | nil => simp
  | cons a t ih => cases l <;> simp [ih]

/-- Dropping the elements on which `f` vanishes does not change a sum:
here, dropping the pairs whose weight is not positive, when every weight
is nonnegative and a zero weight makes `f` vanish. -/
theorem filter_pos_sum_eq_sum {β : Type} {V : Type} [AddCommMonoid V]
    (l : List (ℚ × β)) (f : ℚ × β → V)
    (h0 : ∀ pb ∈ l, 0 ≤ pb.1) (hz : ∀ pb ∈ l, pb.1 = 0 → f pb = 0) :
    ((l.filter (fun pb => decide (0 < pb.1))).map f).sum = (l.map f).sum := by
  induction l with
  | nil => simp
  | cons pb t ih =>
    have hpb : 0 ≤ pb.1 := h0 pb (List.mem_cons_self pb t)
    have ht := ih (fun q hq => h0 q (List.mem_cons_of_mem pb hq))
      (fun q hq => hz q (List.mem_cons_of_mem pb hq))
    by_cases hpos : 0 < pb.1
    · simp only [List.filter_cons, decide_eq_true_eq]
      rw [if_pos hpos, List.map_cons, List.map_cons, List.sum_cons,
        List.sum_cons, ht]
    · have hzero : pb.1 = 0 := le_antisymm (not_lt.mp hpos) hpb
      have hf : f pb = 0 := hz pb (List.mem_cons_self pb t) hzero
      simp only [List.filter_cons, decide_eq_true_eq]
      rw [if_neg hpos, List.map_cons, List.sum_cons, ht, hf, zero_add]

/-- Filtering an association list for a key present among its (nodup)
keys retains exactly that key. -/
theorem keys_filter_eq_singleton {α : Type} (d : ODict α) (c : String)
    (hnd : (ODict.keys d).Nodup) (hc : c ∈ ODict.keys d) :
    ODict.keys (d.filter (fun kv => kv.1 == c)) = [c] := by
  induction d with
  | nil => simp [ODict.keys] at hc
  | cons kv t ih =>
    simp only [ODict.keys, List.map_cons, List.nodup_cons] at hnd
    simp only [ODict.keys, List.map_cons, List.mem_cons] at hc
    rcases hc with hc | hc
    · subst hc
      have hrest : t.filter (fun q => q.1 == kv.1) = [] := by
        rw [List.filter_eq_nil_iff]
        rintro q hq hqc
        simp only [beq_iff_eq] at hqc
        exact hnd.1 (hqc ▸ List.mem_map_of_mem Prod.fst hq)
      rw [List.filter_cons, if_pos (beq_self_eq_true kv.1)]
      simp [ODict.keys, hrest]
    · have hne : kv.1 ≠ c := by
        intro h
        exact hnd.1 (h ▸ hc)
      have hkeq : (kv.1 == c) = false := by simp [hne]
      simp only [List.filter_cons, hkeq]
      exact ih hnd.2 hc

/-!
Claim theorems.
-/

/-- C2: for every unfixed `DiffOP` (with the ModuleDict key-uniqueness
invariant) and every `chosen` among its current choices, and for every
unfixed `DiffChoiceRoute` and list `chosen` of current choices,
`fix_chosen` succeeds, the retained candidate keys (edge keys) are
exactly the entries of `chosen`, and `is_fixed` becomes true. -/
theorem claim2_fix_chosen_prunes_exactly {T V : Type}
    (m : DiffOP T V) (c : String)
    (hfix : m.is_fixed = false) (hnd : m.choices.Nodup) (hc : c ∈ m.choices)
    (r : DiffChoiceRoute T V) (ch : List String)
    (hrfix : r.is_fixed = false) (hsub : ∀ e ∈ ch, e ∈ r.choices) :
    (∃ m2, m.fix_chosen c = Except.ok m2 ∧ m2.choices = [c]
      ∧ m2.is_fixed = true)
    ∧ (∃ r2, r.fix_chosen ch = Except.ok r2
      ∧ (∀ e, e ∈ r2.choices ↔ e ∈ ch) ∧ r2.is_fixed = true) := by
  constructor
  · refine ⟨⟨m.candidate_ops.filter (fun kv => kv.1 == c), true, some c⟩,
      ?_, ?_, rfl⟩
    · simp only [DiffOP.fix_chosen, hfix, Bool.false_eq_true, if_false]
    · exact keys_filter_eq_singleton m.candidate_ops c hnd hc
  · refine ⟨⟨r.edges.filter (fun kv => ch.contains kv.1), r.with_arch_param,
      true, some ch, some r.choices⟩, ?_, ?_, rfl⟩
    · simp only [DiffChoiceRoute.fix_chosen, hrfix, Bool.false_eq_true,
        if_false]
    · intro e
      constructor
      · intro he
        simp only [DiffChoiceRoute.choices, ODict.keys, List.mem_map] at he
        obtain ⟨kv, hkv, hke⟩ := he
        rw [List.mem_filter] at hkv
        exact hke ▸ List.mem_of_elem_eq_true hkv.2
      · intro he
        have hem : e ∈ r.choices := hsub e he
        simp only [DiffChoiceRoute.choices, ODict.keys, List.mem_map] at hem ⊢
        obtain ⟨kv, hkv, hke⟩ := hem
        refine ⟨kv, ?_, hke⟩
        rw [List.mem_filter]
        exact ⟨hkv, List.elem_eq_true_of_mem (hke ▸ he : kv.1 ∈ ch)⟩

/-- C6: calling `fix_chosen` on an already fixed `DiffOP` or
`DiffChoiceRoute` raises an AttributeError; double-fixing never
silently succeeds. -/
theorem claim6_double_fix_errors {T V : Type}
    (m : DiffOP T V) (c : String) (hm : m.is_fixed = true)
    (r : DiffChoiceRoute T V) (ch : List String) (hr : r.is_fixed = true) :
    m.fix_chosen c =
      Except.error "AttributeError: the mode of current MUTABLE is fixed"
    ∧ r.fix_chosen ch =
      Except.error "AttributeError: the mode of current MUTABLE is fixed" := by
  constructor
  · simp only [DiffOP.fix_chosen, hm, if_true]
  · simp only [DiffChoiceRoute.fix_chosen, hr, if_true]

/-- C7: calling the fixed-mode forward on a mutable on which `fix_chosen`
has never been called (no chosen entry recorded) fails with an error for
both `DiffOP` and `DiffChoiceRoute`. -/
theorem claim7_forward_fixed_before_fix_errors {T V : Type} [AddCommMonoid V]
    (m : DiffOP T V) (x : T) (hm : m.chosen = none)
    (r : DiffChoiceRoute T V) (xs : List T) (hr : r.chosen = none) :
    m.forward_fixed x = Except.error "TypeError: chosen is not set"
    ∧ r.forward_fixed xs =
      Except.error "AssertionError: please call fix_chosen first" := by
  constructor
  · simp only [DiffOP.forward_fixed, hm]
  · simp only [DiffChoiceRoute.forward_fixed, hr]

/-- Witness for C2 at a concrete two-candidate `DiffOP` and two-edge
`DiffChoiceRoute`. -/
theorem claim2_witness :
    (∃ m2, diffPairEx.fix_chosen "a" = Except.ok m2 ∧ m2.choices = ["a"]
      ∧ m2.is_fixed = true)
    ∧ (∃ r2, routePairEx.fix_chosen ["e1"] = Except.ok r2
      ∧ (∀ e, e ∈ r2.choices ↔ e ∈ ["e1"]) ∧ r2.is_fixed = true) :=
  claim2_fix_chosen_prunes_exactly diffPairEx "a" rfl (by decide) (by decide)
    routePairEx ["e1"] rfl (by decide)

/-- Witness for C6 at concrete already fixed mutables. -/
theorem claim6_witness :
    diffFixedEx.fix_chosen "b" =
      Except.error "AttributeError: the mode of current MUTABLE is fixed"
    ∧ routeFixedEx.fix_chosen ["e1"] =
      Except.error "AttributeError: the mode of current MUTABLE is fixed" :=
  claim6_double_fix_errors diffFixedEx "b" rfl routeFixedEx ["e1"] rfl

/-- Witness for C7 at concrete never-fixed mutables. -/
theorem claim7_witness :
    diffPairEx.forward_fixed 0 = Except.error "TypeError: chosen is not set"
    ∧ routePairEx.forward_fixed [0, 0] =
      Except.error "AssertionError: please call fix_chosen first" :=
  claim7_forward_fixed_before_fix_errors diffPairEx 0 rfl routePairEx [0, 0]
    rfl

/-- C8: in `single_evaluate`, a positive-infinity score is replaced by
`1e9` and a negative-infinity one by `-1e9`, so the prediction array
handed to the correlation computation has no infinite entry. -/
theorem claim8_clamp_infinities (scores : List PFloat) (s : PFloat)
    (hs : s ∈ singleEvaluatePreds scores) :
    clampInf PFloat.posInf = PFloat.finite (10 ^ 9)
    ∧ clampInf PFloat.negInf = PFloat.finite (-(10 ^ 9))
    ∧ s ≠ PFloat.posInf ∧ s ≠ PFloat.negInf := by
  refine ⟨rfl, rfl, ?_, ?_⟩ <;>
  · simp only [singleEvaluatePreds, List.mem_map] at hs
    obtain ⟨t, _, rfl⟩ := hs
    cases t <;> simp [clampInf, PFloat.pyEq]

/-- Witness for C8 at a concrete score list containing both infinities. -/
theorem claim8_witness :
    clampInf PFloat.posInf = PFloat.finite (10 ^ 9)
    ∧ clampInf PFloat.negInf = PFloat.finite (-(10 ^ 9))
    ∧ PFloat.finite (10 ^ 9) ≠ PFloat.posInf
    ∧ PFloat.finite (10 ^ 9) ≠ PFloat.negInf :=
  claim8_clamp_infinities [PFloat.posInf, PFloat.negInf, PFloat.finite 2]
    (PFloat.finite (10 ^ 9))
    (by simp [singleEvaluatePreds, clampInf, PFloat.pyEq])

/-- C10: `DiffChoiceRoute.forward_arch_param` and `forward_all` fail
whenever the number of inputs differs from the number of edges; under a
matching length, `forward_all` applies every edge to exactly its
corresponding input (a `zipWith` over all edges), and the weighted
branch with a full-length positive probability vector does too. -/
theorem claim10_route_length_guard {T V : Type} [AddCommMonoid V]
    [Module ℚ V] (r : DiffChoiceRoute T V) (xs : List T)
    (ap : Option (List ℚ)) (hne : xs.length ≠ r.edges.length)
    (r2 : DiffChoiceRoute T V) (xs2 : List T)
    (hlen : xs2.length = r2.edges.length) (hw2 : r2.with_arch_param = true)
    (ps : List ℚ) (hpos : ∀ p ∈ ps, 0 < p) :
    r.forward_arch_param xs ap =
      Except.error "AssertionError: length of edges differs from inputs"
    ∧ r.forward_all xs =
      Except.error "AssertionError: length of edges differs from inputs"
    ∧ r2.forward_all xs2 =
      Except.ok
        ((List.zipWith (fun op a => op a) (ODict.values r2.edges) xs2).sum)
    ∧ (List.zipWith (fun op a => op a) (ODict.values r2.edges) xs2).length
        = r2.edges.length
    ∧ r2.forward_arch_param xs2 (some ps) =
      Except.ok
        ((List.zipWith (fun p oa => p • oa.1 oa.2) ps
          ((ODict.values r2.edges).zip xs2)).sum) := by
  refine ⟨?_, ?_, ?_, ?_, ?_⟩
  · simp only [DiffChoiceRoute.forward_arch_param, hne, if_false]
  · simp only [DiffChoiceRoute.forward_all, hne, if_false]
  · simp only [DiffChoiceRoute.forward_all, hlen, if_true]
    rw [zip_map_apply_eq_zipWith]
  · rw [List.length_zipWith, ODict.values, List.length_map, ← hlen,
      min_self]
  · simp only [DiffChoiceRoute.forward_arch_param, hlen, if_true, hw2]
    have hfull : (ps.zip ((ODict.values r2.edges).zip xs2)).filter
        (fun t => decide (0 < t.1)) =
        ps.zip ((ODict.values r2.edges).zip xs2) := by
      rw [List.filter_eq_self]
      intro t ht
      exact decide_eq_true (hpos t.1 (List.of_mem_zip ht).1)
    rw [hfull, zip_map_smul_eq_zipWith]

/-- Witness for C10: a two-edge route with a length-one input list
errors, and with matching inputs and positive probabilities the sums
range over both edges. -/
theorem claim10_witness :
    routeWAPairEx.forward_arch_param [0] none =
      Except.error "AssertionError: length of edges differs from inputs"
    ∧ routeWAPairEx.forward_all [0] =
      Except.error "AssertionError: length of edges differs from inputs"
    ∧ routeWAPairEx.forward_all [0, 0] =
      Except.ok
        ((List.zipWith (fun op a => op a) (ODict.values routeWAPairEx.edges)
          [0, 0]).sum)
    ∧ (List.zipWith (fun op a => op a) (ODict.values routeWAPairEx.edges)
        [0, 0]).length = routeWAPairEx.edges.length
    ∧ routeWAPairEx.forward_arch_param [0, 0] (some [1/2, 1/2]) =
      Except.ok
        ((List.zipWith (fun p oa => p • oa.1 oa.2) ([1/2, 1/2] : List ℚ)
          ((ODict.values routeWAPairEx.edges).zip [0, 0])).sum) := by
  have h := claim10_route_length_guard routeWAPairEx [0] none (by decide)
    routeWAPairEx [0, 0] (by decide) rfl [1/2, 1/2] (by norm_num)
  exact h

/-- C5: the weighted-mixture forward that skips candidates with
probability not `> 0` equals the full probability-weighted sum over all
candidates, for every nonnegative computed probability vector (softmax
and Gumbel-softmax outputs are nonnegative), for both `DiffOP` and
`DiffChoiceRoute`. -/
theorem claim5_zero_skip_equals_full {T V : Type} [AddCommMonoid V]
    [Module ℚ V] (m : DiffOP T V) (x : T) (probs : List ℚ)
    (hnn : ∀ p ∈ probs, 0 ≤ p)
    (r : DiffChoiceRoute T V) (xs : List T) (probs2 : List ℚ)
    (hnn2 : ∀ p ∈ probs2, 0 ≤ p) (hw : r.with_arch_param = true)
    (hlen : xs.length = r.edges.length) :
    m.forward_arch_param x (some probs) = m.spec_full_mixture x probs
    ∧ r.forward_arch_param xs (some probs2) =
      Except.ok (r.spec_full_mixture xs probs2) := by
  constructor
  · simp only [DiffOP.forward_arch_param, DiffOP.spec_full_mixture]
    refine filter_pos_sum_eq_sum _ _ ?_ ?_
    · intro pb hpb
      exact hnn pb.1 (List.of_mem_zip hpb).1
    · intro pb _ hz
      rw [hz, zero_smul]
  · simp only [DiffChoiceRoute.forward_arch_param, hlen, if_true, hw,
      DiffChoiceRoute.spec_full_mixture]
    rw [Except.ok.injEq]
    refine filter_pos_sum_eq_sum _ _ ?_ ?_
    · intro pb hpb
      exact hnn2 pb.1 (List.of_mem_zip hpb).1
    · intro pb _ hz
      rw [hz, zero_smul]

/-- Witness for C5 at concrete mutables and probability vectors with a
zero entry. -/
theorem claim5_witness :
    diffPairEx.forward_arch_param 1 (some [1/2, 0]) =
      diffPairEx.spec_full_mixture 1 [1/2, 0]
    ∧ routeWAPairEx.forward_arch_param [0, 0] (some [0, 1]) =
      Except.ok (routeWAPairEx.spec_full_mixture [0, 0] [0, 1]) :=
  claim5_zero_skip_equals_full diffPairEx 1 [1/2, 0] (by norm_num)
    routeWAPairEx [0, 0] [0, 1] (by norm_num) rfl (by decide)

/-- C1 (failing input): an unfixed `DynaDiffOP` with candidates
`["a", "b"]`, threshold `0.3`, receiving computed probabilities
`[0.9, 0.1]` (top-2 gap `0.8` at or above the threshold, leading choice
`"a"`): the call fixes the mutable permanently — but on `"b"`, the
second list entry, because the boolean comparison result is used as the
index, and returns `0.9 * opAdd2 1`, not an output of the leading
choice. -/
theorem claim1_dyna_fixes_non_leading :
    (dynaEx.forward_arch_param 1 (some [9/10, 1/10])).map
      (fun rr => (rr.2.chosen, rr.2.is_fixed, rr.1)) =
      Except.ok (some "b", true, 27/10)
    ∧ dynaEx.toDiffOP.choices = ["a", "b"]
    ∧ ((9 : ℚ)/10 > 1/10)
    ∧ ((9 : ℚ)/10 - 1/10 ≥ dynaEx.dyna_thresh) := by
  refine ⟨?_, by decide, by norm_num, by norm_num [dynaEx]⟩
  simp only [dynaEx, DynaDiffOP.forward_arch_param, DiffOP.fix_chosen,
    DiffOP.choices, ODict.keys, ODict.values, topkTwo, opAdd1, opAdd2,
    Except.map, Bind.bind, Except.bind, List.filter_cons]
  norm_num
  simp [opAdd1, opAdd2]
  norm_num

/-- C3 (failing input): a `DiffOP` with candidates
`["conv3x3", "skip"]` fixed on `"conv3x3"`: the subsequent `forward`
iterates the *characters* of the chosen name and raises KeyError on
`"c"` instead of returning `opAdd1 5 = 6`, the chosen operation applied
directly. -/
theorem claim3_fix_then_forward_key_error :
    ((diffConvEx.fix_chosen "conv3x3").bind
      (fun m2 => m2.forward 5 none)) = Except.error "KeyError"
    ∧ opAdd1 5 = 6 := by
  refine ⟨rfl, by norm_num [opAdd1]⟩

/-- C9 (failing input): `test_pred = [[0,0,0],[6,6,6]]` (two
architectures, three scores each): `np.mean(test_pred, axis=0)` yields
`[3,3,3]` — the mean across *architectures*, three values for two
architectures — not the per-architecture means `[0,6]`. -/
theorem claim9_mean_on_architecture_axis :
    npMeanAxisZero [[0, 0, 0], [6, 6, 6]] = [3, 3, 3]
    ∧ spec_perArchMean [[0, 0, 0], [6, 6, 6]] = [0, 6]
    ∧ npMeanAxisZero [[0, 0, 0], [6, 6, 6]] ≠
        spec_perArchMean [[0, 0, 0], [6, 6, 6]]
    ∧ ([[0, 0, 0], [6, 6, 6]] : List (List ℚ)).length = 2
    ∧ (npMeanAxisZero [[0, 0, 0], [6, 6, 6]]).length = 3 := by
  have h1 : npMeanAxisZero [[0, 0, 0], [6, 6, 6]] = [3, 3, 3] := by
    norm_num [npMeanAxisZero, List.range_succ]
  have h2 : spec_perArchMean [[0, 0, 0], [6, 6, 6]] = [0, 6] := by
    norm_num [spec_perArchMean]
  refine ⟨h1, h2, ?_, rfl, by rw [h1]; rfl⟩
  rw [h1, h2]
  intro h
  exact absurd (List.head_eq_of_cons_eq h) (by norm_num)

/-- The `forward_all` sum of a candidate dict equals the indexed sum of
each candidate output. -/
theorem odict_map_sum_eq_fin_sum {T V : Type} [AddCommMonoid V]
    (d : ODict (T → V)) (x : T) :
    ((ODict.values d).map (fun op => op x)).sum =
      ∑ i : Fin d.length, (d.get i).2 x := by
  induction d with
  | nil => simp [ODict.values]
  | cons kv t ih =>
    show kv.2 x + ((ODict.values t).map (fun op => op x)).sum =
      ∑ i : Fin (t.length + 1), ((kv :: t).get i).2 x
    rw [Fin.sum_univ_succ, ih]
    rfl

/-- C4 (amended): for every unfixed `DiffOP` and `DynaDiffOP`, a forward
with absent `arch_param` computes `forward_all`, the sum over all `N`
candidates of that candidate's output; for a `DiffChoiceRoute` this
holds when `with_arch_param` is false (each edge applied to its
corresponding input).  The `with_arch_param=True` route errors on an
absent `arch_param` instead (see the counterexample). -/
theorem claim4_absent_arch_param_forward_all {T V : Type} [AddCommMonoid V]
    [Module ℚ V] (m : DiffOP T V) (hm : m.is_fixed = false) (x : T)
    (d : DynaDiffOP T V) (hd : d.is_fixed = false) (y : T)
    (r : DiffChoiceRoute T V) (hr : r.is_fixed = false)
    (hw : r.with_arch_param = false) (xs : List T)
    (hlen : xs.length = r.edges.length) :
    m.forward x none = Except.ok (m.forward_all x)
    ∧ m.forward_all x =
      ∑ i : Fin m.candidate_ops.length, (m.candidate_ops.get i).2 x
    ∧ d.forward y none = Except.ok (d.toDiffOP.forward_all y, d)
    ∧ r.forward xs none =
      Except.ok
        ((List.zipWith (fun op a => op a) (ODict.values r.edges) xs).sum) := by
  refine ⟨?_, ?_, ?_, ?_⟩
  · simp only [DiffOP.forward, hm, Bool.false_eq_true, if_false,
      DiffOP.forward_arch_param]
  · exact odict_map_sum_eq_fin_sum m.candidate_ops x
  · simp only [DynaDiffOP.forward, hd, Bool.false_eq_true, if_false,
      DynaDiffOP.forward_arch_param]
  · simp only [DiffChoiceRoute.forward, hr, Bool.false_eq_true, if_false,
      DiffChoiceRoute.forward_arch_param, hlen, if_true, hw,
      DiffChoiceRoute.forward_all]
    rw [zip_map_apply_eq_zipWith]

/-- C4 counterexample: a `with_arch_param=True` route, unfixed, called
with `arch_param` absent errors instead of computing `forward_all`. -/
theorem claim4_counterexample :
    routeWAEx.is_fixed = false
    ∧ routeWAEx.forward [0] none =
        Except.error "AttributeError: softmax of None"
    ∧ routeWAEx.forward_all [0] = Except.ok 1 := by
  refine ⟨rfl, rfl, ?_⟩
  norm_num [routeWAEx, DiffChoiceRoute.forward_all, ODict.values, opAdd1]

/-- Witness for the amended C4 at concrete mutables. -/
theorem claim4_witness :
    diffPairEx.forward 1 none = Except.ok (diffPairEx.forward_all 1)
    ∧ diffPairEx.forward_all 1 =
      ∑ i : Fin diffPairEx.candidate_ops.length,
        (diffPairEx.candidate_ops.get i).2 1
    ∧ dynaEx.forward 1 none =
      Except.ok (dynaEx.toDiffOP.forward_all 1, dynaEx)
    ∧ routePairEx.forward [0, 0] none =
      Except.ok
        ((List.zipWith (fun op a => op a) (ODict.values routePairEx.edges)
          [0, 0]).sum) :=
  claim4_absent_arch_param_forward_all diffPairEx rfl 1 dynaEx rfl 1
    routePairEx rfl rfl [0, 0] (by decide)
